import Mathlib

/-!
Verification of the vertex-animation baking pipeline
(`vertex_animation.py`, a Blender add-on that stores per-frame vertex
offsets and normals of selected mesh objects into image textures).

Shallow embedding: Blender mesh data becomes Lean structures over ℚ
(Python floats are modelled as exact rationals; every arithmetic
operation used by the program — add, sub, mul, div by a nonzero span,
min, max — is exact on the values the claims quantify over, so the
rational model is faithful up to floating-point rounding, which the
spec's tolerances absorb).  Pure functions of the script become Lean
functions; the operator's `execute` method becomes a function from an
explicit scene/object state to an `Outcome` record that also tracks the
side effects (sampling, mesh creation, texture creation, file saves) in
the order the script performs them.
-/

namespace VertexAnimation

/-- A 3-component float vector (`mathutils.Vector` with x, y, z). -/
structure Vec3 where
  x : ℚ
  y : ℚ
  z : ℚ
deriving DecidableEq, Repr, Inhabited

/-- One Blender mesh vertex: `vertex.co` and `vertex.normal`.
The vertex's `index` is its position in the mesh's vertex list. -/
structure Vertex where
  co : Vec3
  normal : Vec3
deriving DecidableEq, Repr, Inhabited

/-- A UV coordinate pair. -/
structure UV where
  u : ℚ
  v : ℚ
deriving DecidableEq, Repr, Inhabited

/-- A mesh loop (face corner).  In Blender `loop.index` is the loop's
position in `mesh.loops`, so the embedding keeps only `vertex_index`
and uses the list position as the loop index. -/
structure Loop where
  vertex_index : Nat
deriving DecidableEq, Repr, Inhabited

/-- One UV layer: a name and per-loop UV data (Blender keeps
`len(layer.data) == len(mesh.loops)`). -/
structure UVLayer where
  name : String
  data : List UV
deriving DecidableEq, Repr, Inhabited

/-- Mesh data: vertices, loops and UV layers. -/
structure Mesh where
  vertices : List Vertex
  loops : List Loop
  uv_layers : List UVLayer
deriving DecidableEq, Repr, Inhabited

/-- The map `normalize_signed_to_zero_to_one_space(x) = (x + 1) * 0.5`. -/
def normalize_signed_to_zero_to_one_space (x : ℚ) : ℚ :=
  (x + 1) * (1/2)

/-- The four floats `get_vertex_data` appends to `offsets` for one vertex:
`offset = vertex.co - original[vertex.index].co`, then `(x, y, z, 1.0)`.
`p` is the `(index, vertex)` pair from enumerating the mesh's vertices. -/
def offsetEntry (original : List Vertex) (p : Nat × Vertex) : List ℚ :=
  let o := (original.getD p.1 default).co
  [p.2.co.x - o.x, p.2.co.y - o.y, p.2.co.z - o.z, 1]

/-- The four floats `get_vertex_data` appends to `normals` for one vertex. -/
def normalEntry (v : Vertex) : List ℚ :=
  [normalize_signed_to_zero_to_one_space v.normal.x,
   normalize_signed_to_zero_to_one_space v.normal.y,
   normalize_signed_to_zero_to_one_space v.normal.z, 1]

/-- The slice of `offsets` contributed by one mesh of the per-frame list
(the inner `for vertex in mesh.vertices` loop). -/
def offsetsOfMesh (original : List Vertex) (m : Mesh) : List ℚ :=
  m.vertices.enum.flatMap (offsetEntry original)

/-- The slice of `normals` contributed by one mesh. -/
def normalsOfMesh (m : Mesh) : List ℚ :=
  m.vertices.flatMap normalEntry

/-- The function `get_vertex_data(data, meshes)`: offsets against `meshes[0].vertices`,
iterating `reversed(meshes)`.  (The `data.meshes.remove` call only frees
transient host data and does not affect the returned lists.)  On the
empty list Python's `meshes[0]` would raise; the embedding's `headD` is
only exercised under the nonemptiness hypotheses of the theorems, and in
`execute` the empty case is trapped before this function runs. -/
def get_vertex_data (meshes : List Mesh) : List ℚ × List ℚ :=
  let original := (meshes.headD default).vertices
  (meshes.reverse.flatMap (offsetsOfMesh original),
   meshes.reverse.flatMap normalsOfMesh)

/-- Index filter of the two scan loops in `bake_vertex_data`:
indices with `(float_index + 1) % 4 == 0` are skipped (the in-range
check `float_index >= len(offsets)` of the source is vacuous inside
`range(len(offsets))`). -/
def scannedIndex (i : Nat) : Bool :=
  (i + 1) % 4 != 0

/-- The scanned (non-alpha) elements of the flat offsets list, in order. -/
def scanned_offsets (offsets : List ℚ) : List ℚ :=
  (offsets.enum.filter (fun p => scannedIndex p.1)).map Prod.snd

/-- First scan loop of `bake_vertex_data`:
`lowest_negative_offset = min(offsets[i], acc)` starting from `0.0`. -/
def lowest_negative_offset (offsets : List ℚ) : ℚ :=
  (scanned_offsets offsets).foldl (fun acc v => min v acc) 0

/-- First scan loop of `bake_vertex_data`:
`highest_positive_offset = max(offsets[i], acc)` starting from `0.0`. -/
def highest_positive_offset (offsets : List ℚ) : ℚ :=
  (scanned_offsets offsets).foldl (fun acc v => max v acc) 0

/-- After `lowest_negative_offset *= -1`: the non-negative magnitude of the most
negative scanned offset (the spec's `neg_extent`). -/
def neg_extent (offsets : List ℚ) : ℚ :=
  -(lowest_negative_offset offsets)

/-- The spec's `pos_extent` (the code reuses `highest_positive_offset`). -/
def pos_extent (offsets : List ℚ) : ℚ :=
  highest_positive_offset offsets

/-- The sum `neg_max_plus_pos_max = highest_positive_offset + lowest_negative_offset`
after the sign flip. -/
def neg_max_plus_pos_max (offsets : List ℚ) : ℚ :=
  pos_extent offsets + neg_extent offsets

/-- The guard `neg_max_plus_pos_max = 1 if neg_max_plus_pos_max == 0 else ...`:
the span actually divided by. -/
def span_used (offsets : List ℚ) : ℚ :=
  if neg_max_plus_pos_max offsets = 0 then 1 else neg_max_plus_pos_max offsets

/-- Second loop of `bake_vertex_data`: skipping every 4th element,
`offsets[i] += lowest_negative_offset; offsets[i] /= neg_max_plus_pos_max`. -/
def normalize_offsets (offsets : List ℚ) : List ℚ :=
  offsets.enum.map (fun p =>
    if scannedIndex p.1 then (p.2 + neg_extent offsets) / span_used offsets else p.2)

/-- A baked image texture (`data.images.new` plus the `pixels` write).
The name of the offsets texture embeds both extents; the embedding keeps
them as fields instead of formatting a string. -/
structure Texture where
  width : Nat
  height : Nat
  float_buffer : Bool
  neg_max : ℚ
  pos_max : ℚ
  pixels : List ℚ
deriving DecidableEq, Repr, Inhabited

/-- The function `bake_vertex_data(data, offsets, normals, size)`: normalizes the
offsets in place and creates the two textures. -/
def bake_vertex_data (offsets normals : List ℚ) (width height : Nat) :
    Texture × Texture :=
  let normalized := normalize_offsets offsets
  (⟨width, height, true, neg_extent offsets, pos_extent offsets, normalized⟩,
   ⟨width, height, false, 0, 0, normals⟩)

/-- Blender's `me.uv_layers.new()`: a fresh layer whose per-loop data
has one `(0, 0)` entry per mesh loop. -/
def new_uv_layer (nloops : Nat) : UVLayer :=
  ⟨"UVMap", List.replicate nloops ⟨0, 0⟩⟩

/-- The loop `while len(me.uv_layers) < 2: me.uv_layers.new()`, unrolled:
it appends fresh layers at the end until two layers exist, so it runs
twice on an empty layer list, once on a singleton, and not at all
otherwise. -/
def ensure_two_uv_layers (nloops : Nat) (layers : List UVLayer) : List UVLayer :=
  match layers with
  | [] => [new_uv_layer nloops, new_uv_layer nloops]
  | [a] => [a, new_uv_layer nloops]
  | a :: b :: rest => a :: b :: rest

/-- The UV written for a loop that references vertex index `vi` in a mesh
of `n` vertices: `((loop.vertex_index + 0.5)/len(me.vertices), 128/255)`. -/
def exportUV (n : Nat) (vi : Nat) : UV :=
  ⟨((vi : ℚ) + 1/2) / (n : ℚ), 128/255⟩

/-- The write loop `for loop in me.loops: uv_layer.data[loop.index].uv = ...`,
with `loop.index` equal to the loop's position in `me.loops`. -/
def write_uvs (loops : List Loop) (n : Nat) (data : List UV) : List UV :=
  loops.enum.foldl (fun d p => d.set p.1 (exportUV n p.2.vertex_index)) data

/-- The function `create_export_mesh_object(context, data, me)`: guarantees two UV
layers, renames the second to `"vertex_anim"` and fills its data.
(The embedding returns the mutated mesh; linking the new object into the
scene collection is a host side effect tracked by `execute`.) -/
def create_export_mesh_object (me : Mesh) : Mesh :=
  let layers := ensure_two_uv_layers me.loops.length me.uv_layers
  let uv_layer := layers.getD 1 default
  let uv_layer' : UVLayer :=
    ⟨"vertex_anim", write_uvs me.loops me.vertices.length uv_layer.data⟩
  { me with uv_layers := layers.set 1 uv_layer' }

/-- Structural worker for `pyRange`: emits `start` while `start < stop`
and recurses on `start + step`, spending one unit of fuel per element. -/
def pyRangeFuel : Nat → Int → Int → Int → List Int
  | 0, _, _, _ => []
  | fuel + 1, start, stop, step =>
    if 0 < step ∧ start < stop then
      start :: pyRangeFuel fuel (start + step) stop step
    else []

/-- Python `range(start, stop, step)` for a positive step (Blender forces
`frame_step >= 1`; a non-positive step yields the empty range).  The fuel
`(stop - start).toNat` is an upper bound on the element count because
each emitted element advances `start` by `step >= 1`, so the fuel never
runs out before the range is exhausted. -/
def pyRange (start stop step : Int) : List Int :=
  pyRangeFuel (stop - start).toNat start stop step

/-- Scene state read by the operator. -/
structure Scene where
  frame_start : Int
  frame_end : Int
  frame_step : Int
  unit_system : String
  scale_length : ℚ
deriving DecidableEq, Repr

/-- The schedule `frame_range(scene) = range(scene.frame_start, scene.frame_end+1,
scene.frame_step)`. -/
def frame_range (scene : Scene) : List Int :=
  pyRange scene.frame_start (scene.frame_end + 1) scene.frame_step

/-- One selected mesh object: its base (un-evaluated) vertex count
`len(ob.data.vertices)` and its modifier stack's types. -/
structure SceneObject where
  base_vertices : Nat
  modifiers : List String
deriving DecidableEq, Repr

/-- The operator's `allowed_modifiers` property. -/
def allowed_modifiers : List String :=
  ["ARMATURE", "CAST", "CURVE", "DISPLACE", "HOOK",
   "LAPLACIANDEFORM", "LATTICE", "MESH_DEFORM",
   "SHRINKWRAP", "SIMPLE_DEFORM", "SMOOTH",
   "CORRECTIVE_SMOOTH", "LAPLACIANSMOOTH",
   "SURFACE_DEFORM", "WARP", "WAVE"]

/-- Python `round(x, 2)` on the unit scale.  (Python uses round-half-even;
Mathlib's `round` is round-half-up.  They differ only at exact half-way
values of `100 * x`, which none of the claims exercise.) -/
def pyRound2 (q : ℚ) : ℚ :=
  ((round (q * 100) : ℤ) : ℚ) / 100

/-- How a run of `OBJECT_OT_ProcessAnimMeshes.execute` ends. -/
inductive ExecError where
  /-- Reported as "... modifiers are not allowed!", run cancelled. -/
  | modifierNotAllowed (t : String)
  /-- Reported as "Scene Unit must be Metric with a Unit Scale of 0.01!". -/
  | invalidUnits
  /-- Reported as "Vertex count ... exceeds limit of 8,192!". -/
  | vertexLimit
  /-- Reported as "Frame count ... exceeds limit of 8,192!". -/
  | frameLimit
  /-- Uncaught Python `IndexError` from `meshes[0]` on an empty list. -/
  | indexError
  /-- Uncaught `RuntimeError("Please save your .blend file ...")` raised
  by `save_image_exr` when `bpy.data.filepath` is empty. -/
  | noSaveTarget
deriving DecidableEq, Repr

/-- Result of one `execute` invocation, together with the side effects
performed before it ended, in program order. -/
structure Outcome where
  /-- Holds `none` for a FINISHED run; otherwise the error/exception that ended it. -/
  result : Option ExecError
  /-- Frames sampled by `get_per_frame_mesh_data` before the run ended. -/
  sampled_frames : Nat
  /-- Whether `create_export_mesh_object` ran (mesh linked into the scene). -/
  export_mesh_created : Bool
  /-- The textures `bake_vertex_data` created, if it ran. -/
  offset_texture : Option Texture
  normal_texture : Option Texture
  /-- Number of images `save_image_exr` successfully wrote to disk. -/
  images_saved : Nat
deriving DecidableEq, Repr

/-- The operator method `OBJECT_OT_ProcessAnimMeshes.execute(context)`.

Host inputs are explicit: `scene` (frame range and unit settings),
`objects` (`context.selected_objects` filtered to meshes, in order),
`sample` (the depsgraph: the merged, evaluated, world-transformed mesh
the `bmesh` merge of `get_per_frame_mesh_data` yields at a given frame),
and `blend_filepath` (`bpy.data.filepath`, empty when the .blend is
unsaved).

The branch order matches the source: modifier check, unit check, vertex
limit, frame limit, sampling, `meshes[0].copy()` (raises on an empty
frame range), export-mesh creation, encoding, baking, then the two
`save_image_exr` calls, whose save-target check is their first action. -/
def execute (scene : Scene) (objects : List SceneObject)
    (sample : Int → Mesh) (blend_filepath : String) : Outcome :=
  let vertex_count := (objects.map SceneObject.base_vertices).sum
  let frames := frame_range scene
  let frame_count := frames.length
  match (objects.flatMap SceneObject.modifiers).find?
      (fun m => !(allowed_modifiers.contains m)) with
  | some m => ⟨some (.modifierNotAllowed m), 0, false, none, none, 0⟩
  | none =>
    if scene.unit_system ≠ "METRIC" ∨ pyRound2 scene.scale_length ≠ 1/100 then
      ⟨some .invalidUnits, 0, false, none, none, 0⟩
    else if 8192 < vertex_count then
      ⟨some .vertexLimit, 0, false, none, none, 0⟩
    else if 8192 < frame_count then
      ⟨some .frameLimit, 0, false, none, none, 0⟩
    else
      let meshes := frames.map sample
      match meshes with
      | [] => ⟨some .indexError, frame_count, false, none, none, 0⟩
      | _ :: _ =>
        let (offsets, normals) := get_vertex_data meshes
        let baked := bake_vertex_data offsets normals vertex_count frame_count
        if blend_filepath = "" then
          ⟨some .noSaveTarget, frame_count, true, some baked.1, some baked.2, 0⟩
        else
          ⟨none, frame_count, true, some baked.1, some baked.2, 2⟩

/-! ### General list lemmas -/

/-- Length of a `flatMap` whose chunks all have length `L`. -/
lemma flatMap_length_uniform {α β : Type} (l : List α) (f : α → List β) (L : ℕ)
    (h : ∀ x ∈ l, (f x).length = L) : (l.flatMap f).length = L * l.length := by
  induction l with
  | nil => simp
  | cons a tl ih =>
    simp only [List.flatMap_cons, List.length_append, List.length_cons]
    rw [h a (by simp), ih (fun x hx => h x (by simp [hx]))]
    ring

/-- Indexing into a `flatMap` whose chunks all have length `L`. -/
lemma flatMap_getD_uniform {α β : Type} [Inhabited α] (l : List α) (f : α → List β)
    (L : ℕ) (h : ∀ x ∈ l, (f x).length = L) (r j : ℕ) (hr : r < l.length)
    (hj : j < L) (d : β) :
    (l.flatMap f).getD (L * r + j) d = (f (l.getD r default)).getD j d := by
  induction l generalizing r with
  | nil => simp at hr
  | cons a tl ih =>
    rw [List.flatMap_cons]
    cases r with
    | zero =>
      simpa using List.getD_append (f a) (tl.flatMap f) d j
        (by rw [h a (by simp)]; omega)
    | succ r' =>
      have hlen : (f a).length = L := h a (by simp)
      rw [List.getD_append_right _ _ _ _ (by rw [hlen]; nlinarith)]
      have harith : L * (r' + 1) + j - (f a).length = L * r' + j := by
        rw [hlen]; ring_nf; omega
      rw [harith, List.getD_cons_succ]
      exact ih (fun x hx => h x (by simp [hx])) r' (by simpa using hr)

/-- Reversed list indexing in `getD` form. -/
lemma getD_reverse {α : Type} (l : List α) (r : ℕ) (hr : r < l.length) (d : α) :
    l.reverse.getD r d = l.getD (l.length - 1 - r) d := by
  have hr' : r < l.reverse.length := by simpa using hr
  rw [List.getD_eq_getElem _ _ hr', List.getElem_reverse,
    List.getD_eq_getElem _ _ (by omega)]

/-! ### Lengths of the encoded lists -/

/-- Each vertex contributes exactly four floats to the offsets slice. -/
lemma offsetsOfMesh_length (original : List Vertex) (m : Mesh) :
    (offsetsOfMesh original m).length = 4 * m.vertices.length := by
  unfold offsetsOfMesh
  rw [flatMap_length_uniform _ _ 4 (fun p _ => by simp [offsetEntry])]
  simp [List.enum_length]

/-- Each vertex contributes exactly four floats to the normals slice. -/
lemma normalsOfMesh_length (m : Mesh) :
    (normalsOfMesh m).length = 4 * m.vertices.length := by
  unfold normalsOfMesh
  rw [flatMap_length_uniform _ _ 4 (fun v _ => by simp [normalEntry])]

/-- Offsets list length when all frames have `V` vertices. -/
lemma get_vertex_data_fst_length (meshes : List Mesh) (V : ℕ)
    (hV : ∀ m ∈ meshes, m.vertices.length = V) :
    (get_vertex_data meshes).1.length = 4 * V * meshes.length := by
  unfold get_vertex_data
  simp only
  rw [flatMap_length_uniform _ _ (4 * V)
    (fun m hm => by
      rw [offsetsOfMesh_length, hV m (List.mem_reverse.mp hm)]),
    List.length_reverse]

/-- Normals list length when all frames have `V` vertices. -/
lemma get_vertex_data_snd_length (meshes : List Mesh) (V : ℕ)
    (hV : ∀ m ∈ meshes, m.vertices.length = V) :
    (get_vertex_data meshes).2.length = 4 * V * meshes.length := by
  unfold get_vertex_data
  simp only
  rw [flatMap_length_uniform _ _ (4 * V)
    (fun m hm => by
      rw [normalsOfMesh_length, hV m (List.mem_reverse.mp hm)]),
    List.length_reverse]

/-! ### Claim C1 -/

/-- C1: for every non-empty list of per-frame merged meshes that all have
the same vertex count `V`, `get_vertex_data` returns two flat lists,
offsets and normals, each of length exactly `4 * V * frame_count`. -/
theorem claim_C1_output_lengths (meshes : List Mesh) (V : ℕ)
    (_hne : meshes ≠ []) (hV : ∀ m ∈ meshes, m.vertices.length = V) :
    (get_vertex_data meshes).1.length = 4 * V * meshes.length ∧
    (get_vertex_data meshes).2.length = 4 * V * meshes.length :=
  ⟨get_vertex_data_fst_length meshes V hV, get_vertex_data_snd_length meshes V hV⟩

/-- Witness for C1 on a concrete two-frame, one-vertex input. -/
theorem claim_C1_output_lengths_witness :
    ([(⟨[⟨⟨0, 0, 0⟩, ⟨0, 0, 1⟩⟩], [], []⟩ : Mesh),
      ⟨[⟨⟨1, 2, 3⟩, ⟨0, 1, 0⟩⟩], [], []⟩] ≠ ([] : List Mesh)) ∧
    (get_vertex_data
        [⟨[⟨⟨0, 0, 0⟩, ⟨0, 0, 1⟩⟩], [], []⟩,
         ⟨[⟨⟨1, 2, 3⟩, ⟨0, 1, 0⟩⟩], [], []⟩]).1.length = 4 * 1 * 2 ∧
    (get_vertex_data
        [⟨[⟨⟨0, 0, 0⟩, ⟨0, 0, 1⟩⟩], [], []⟩,
         ⟨[⟨⟨1, 2, 3⟩, ⟨0, 1, 0⟩⟩], [], []⟩]).2.length = 4 * 1 * 2 := by
  refine ⟨by decide, ?_⟩
  have h := claim_C1_output_lengths
    [⟨[⟨⟨0, 0, 0⟩, ⟨0, 0, 1⟩⟩], [], []⟩, ⟨[⟨⟨1, 2, 3⟩, ⟨0, 1, 0⟩⟩], [], []⟩]
    1 (by decide) (by decide)
  simpa using h

/-! ### Claim C2: emission order -/

/-- Indexing one vertex's 4-float block inside a mesh's offsets slice. -/
lemma offsetsOfMesh_getD (original : List Vertex) (m : Mesh) (v c : ℕ)
    (hv : v < m.vertices.length) (hc : c < 4) :
    (offsetsOfMesh original m).getD (4 * v + c) 0 =
      (offsetEntry original (v, m.vertices.getD v default)).getD c 0 := by
  unfold offsetsOfMesh
  rw [flatMap_getD_uniform _ _ 4 (fun p _ => by simp [offsetEntry]) v c
    (by simpa [List.enum_length] using hv) hc]
  have henum : m.vertices.enum.getD v default = (v, m.vertices.getD v default) := by
    rw [List.getD_eq_getElem _ _ (by simpa [List.enum_length] using hv),
      List.getElem_enum, List.getD_eq_getElem _ _ hv]
  rw [henum]

/-- Indexing one vertex's 4-float block inside a mesh's normals slice. -/
lemma normalsOfMesh_getD (m : Mesh) (v c : ℕ)
    (hv : v < m.vertices.length) (hc : c < 4) :
    (normalsOfMesh m).getD (4 * v + c) 0 =
      (normalEntry (m.vertices.getD v default)).getD c 0 := by
  unfold normalsOfMesh
  rw [flatMap_getD_uniform _ _ 4 (fun p _ => by simp [normalEntry]) v c hv hc,
    List.getD_eq_getElem _ _ hv]

/-- The mesh a flat-output row refers to: row `r` holds frame `N - 1 - r`. -/
lemma gvd_offsets_getD (meshes : List Mesh) (V : ℕ)
    (hV : ∀ m ∈ meshes, m.vertices.length = V) (r v c : ℕ)
    (hr : r < meshes.length) (hv : v < V) (hc : c < 4) :
    (get_vertex_data meshes).1.getD (4 * (r * V + v) + c) 0 =
      (offsetEntry (meshes.headD default).vertices
        (v, (meshes.getD (meshes.length - 1 - r) default).vertices.getD v default)).getD
        c 0 := by
  unfold get_vertex_data
  simp only
  have hidx : 4 * (r * V + v) + c = 4 * V * r + (4 * v + c) := by ring
  rw [hidx, flatMap_getD_uniform _ _ (4 * V)
    (fun m hm => by rw [offsetsOfMesh_length, hV m (List.mem_reverse.mp hm)])
    r (4 * v + c) (by simpa using hr) (by omega) 0]
  rw [getD_reverse _ _ hr]
  have hmem : meshes.getD (meshes.length - 1 - r) default ∈ meshes := by
    rw [List.getD_eq_getElem _ _ (by omega)]
    exact List.getElem_mem _
  exact offsetsOfMesh_getD _ _ v c (by rw [hV _ hmem]; exact hv) hc

/-- Same as `gvd_offsets_getD` for the normals list. -/
lemma gvd_normals_getD (meshes : List Mesh) (V : ℕ)
    (hV : ∀ m ∈ meshes, m.vertices.length = V) (r v c : ℕ)
    (hr : r < meshes.length) (hv : v < V) (hc : c < 4) :
    (get_vertex_data meshes).2.getD (4 * (r * V + v) + c) 0 =
      (normalEntry
        ((meshes.getD (meshes.length - 1 - r) default).vertices.getD v default)).getD
        c 0 := by
  unfold get_vertex_data
  simp only
  have hidx : 4 * (r * V + v) + c = 4 * V * r + (4 * v + c) := by ring
  rw [hidx, flatMap_getD_uniform _ _ (4 * V)
    (fun m hm => by rw [normalsOfMesh_length, hV m (List.mem_reverse.mp hm)])
    r (4 * v + c) (by simpa using hr) (by omega) 0]
  rw [getD_reverse _ _ hr]
  have hmem : meshes.getD (meshes.length - 1 - r) default ∈ meshes := by
    rw [List.getD_eq_getElem _ _ (by omega)]
    exact List.getElem_mem _
  exact normalsOfMesh_getD _ v c (by rw [hV _ hmem]; exact hv) hc

/-- C2: the encoder emits frames in reverse order with vertex index
ascending within each frame: in the flat output, the 4-float block number
`r * V + v` (texture raster row `r`, column `v`) holds the data of frame
`N - 1 - r` at vertex `v` — row `0` is the last frame and row `N - 1` is
the reference/first frame, whose vertices `get_vertex_data` subtracts. -/
theorem claim_C2_reverse_frame_order (meshes : List Mesh) (V : ℕ)
    (_hne : meshes ≠ []) (hV : ∀ m ∈ meshes, m.vertices.length = V)
    (r v : ℕ) (hr : r < meshes.length) (hv : v < V) :
    (get_vertex_data meshes).1.getD (4 * (r * V + v)) 0 =
      ((meshes.getD (meshes.length - 1 - r) default).vertices.getD v default).co.x -
        ((meshes.headD default).vertices.getD v default).co.x ∧
    (get_vertex_data meshes).1.getD (4 * (r * V + v) + 1) 0 =
      ((meshes.getD (meshes.length - 1 - r) default).vertices.getD v default).co.y -
        ((meshes.headD default).vertices.getD v default).co.y ∧
    (get_vertex_data meshes).1.getD (4 * (r * V + v) + 2) 0 =
      ((meshes.getD (meshes.length - 1 - r) default).vertices.getD v default).co.z -
        ((meshes.headD default).vertices.getD v default).co.z ∧
    (get_vertex_data meshes).2.getD (4 * (r * V + v)) 0 =
      normalize_signed_to_zero_to_one_space
        ((meshes.getD (meshes.length - 1 - r) default).vertices.getD v default).normal.x ∧
    (get_vertex_data meshes).2.getD (4 * (r * V + v) + 1) 0 =
      normalize_signed_to_zero_to_one_space
        ((meshes.getD (meshes.length - 1 - r) default).vertices.getD v default).normal.y ∧
    (get_vertex_data meshes).2.getD (4 * (r * V + v) + 2) 0 =
      normalize_signed_to_zero_to_one_space
        ((meshes.getD (meshes.length - 1 - r) default).vertices.getD v default).normal.z := by
  have h0 := gvd_offsets_getD meshes V hV r v 0 hr hv (by omega)
  have h1 := gvd_offsets_getD meshes V hV r v 1 hr hv (by omega)
  have h2 := gvd_offsets_getD meshes V hV r v 2 hr hv (by omega)
  have n0 := gvd_normals_getD meshes V hV r v 0 hr hv (by omega)
  have n1 := gvd_normals_getD meshes V hV r v 1 hr hv (by omega)
  have n2 := gvd_normals_getD meshes V hV r v 2 hr hv (by omega)
  simp only [Nat.add_zero] at h0 n0
  exact ⟨by simpa [offsetEntry] using h0, by simpa [offsetEntry] using h1,
    by simpa [offsetEntry] using h2, by simpa [normalEntry] using n0,
    by simpa [normalEntry] using n1, by simpa [normalEntry] using n2⟩

/-- Witness for C2: two frames, two vertices; row 0 block 0 is the last
frame's first vertex offset against the reference frame. -/
theorem claim_C2_reverse_frame_order_witness :
    (get_vertex_data
        [⟨[⟨⟨0, 0, 0⟩, ⟨0, 0, 1⟩⟩, ⟨⟨5, 0, 0⟩, ⟨0, 0, 1⟩⟩], [], []⟩,
         ⟨[⟨⟨1, 2, 3⟩, ⟨0, 1, 0⟩⟩, ⟨⟨5, 0, 4⟩, ⟨1, 0, 0⟩⟩], [], []⟩]).1.getD
      (4 * (0 * 2 + 0)) 0 = 1 - 0 := by
  have h := (claim_C2_reverse_frame_order
    [⟨[⟨⟨0, 0, 0⟩, ⟨0, 0, 1⟩⟩, ⟨⟨5, 0, 0⟩, ⟨0, 0, 1⟩⟩], [], []⟩,
     ⟨[⟨⟨1, 2, 3⟩, ⟨0, 1, 0⟩⟩, ⟨⟨5, 0, 4⟩, ⟨1, 0, 0⟩⟩], [], []⟩]
    2 (by decide) (by decide) 0 0 (by decide) (by decide)).1
  simpa using h

/-! ### Extent scan lemmas (claims C3, C5) -/

/-- A fold of `min` never rises above its starting accumulator. -/
lemma foldl_min_le_init (l : List ℚ) (a : ℚ) :
    l.foldl (fun acc v => min v acc) a ≤ a := by
  induction l generalizing a with
  | nil => simp
  | cons x xs ih => exact le_trans (ih (min x a)) (min_le_right x a)

/-- A fold of `min` is below every list element. -/
lemma foldl_min_le_mem (l : List ℚ) (a v : ℚ) (hv : v ∈ l) :
    l.foldl (fun acc v => min v acc) a ≤ v := by
  induction l generalizing a with
  | nil => simp at hv
  | cons x xs ih =>
    rw [List.foldl_cons]
    rcases List.mem_cons.mp hv with h | h
    · subst h
      exact le_trans (foldl_min_le_init xs (min v a)) (min_le_left v a)
    · exact ih (min x a) h

/-- A fold of `min` is the initial accumulator or a list element. -/
lemma foldl_min_eq_init_or_mem (l : List ℚ) (a : ℚ) :
    l.foldl (fun acc v => min v acc) a = a ∨
      l.foldl (fun acc v => min v acc) a ∈ l := by
  induction l generalizing a with
  | nil => exact Or.inl rfl
  | cons x xs ih =>
    rcases ih (min x a) with h | h
    · rcases min_choice x a with hx | ha
      · exact Or.inr (by rw [List.foldl_cons, h, hx]; exact List.mem_cons_self x xs)
      · exact Or.inl (by rw [List.foldl_cons, h, ha])
    · exact Or.inr (List.mem_cons_of_mem x h)

/-- A fold of `max` never falls below its starting accumulator. -/
lemma le_foldl_max (l : List ℚ) (a : ℚ) :
    a ≤ l.foldl (fun acc v => max v acc) a := by
  induction l generalizing a with
  | nil => simp
  | cons x xs ih => exact le_trans (le_max_right x a) (ih (max x a))

/-- A fold of `max` is above every list element. -/
lemma foldl_max_le_mem (l : List ℚ) (a v : ℚ) (hv : v ∈ l) :
    v ≤ l.foldl (fun acc v => max v acc) a := by
  induction l generalizing a with
  | nil => simp at hv
  | cons x xs ih =>
    rw [List.foldl_cons]
    rcases List.mem_cons.mp hv with h | h
    · subst h
      exact le_trans (le_max_left v a) (le_foldl_max xs (max v a))
    · exact ih (max x a) h

/-- A fold of `max` is the initial accumulator or a list element. -/
lemma foldl_max_eq_init_or_mem (l : List ℚ) (a : ℚ) :
    l.foldl (fun acc v => max v acc) a = a ∨
      l.foldl (fun acc v => max v acc) a ∈ l := by
  induction l generalizing a with
  | nil => exact Or.inl rfl
  | cons x xs ih =>
    rcases ih (max x a) with h | h
    · rcases max_choice x a with hx | ha
      · exact Or.inr (by rw [List.foldl_cons, h, hx]; exact List.mem_cons_self x xs)
      · exact Or.inl (by rw [List.foldl_cons, h, ha])
    · exact Or.inr (List.mem_cons_of_mem x h)

/-- The first scan's running minimum never exceeds its 0.0 start. -/
lemma lowest_negative_offset_nonpos (offsets : List ℚ) :
    lowest_negative_offset offsets ≤ 0 :=
  foldl_min_le_init _ 0

/-- After the sign flip the negative extent is non-negative. -/
lemma neg_extent_nonneg (offsets : List ℚ) : 0 ≤ neg_extent offsets := by
  have := lowest_negative_offset_nonpos offsets
  unfold neg_extent
  linarith

/-- The positive extent is non-negative. -/
lemma pos_extent_nonneg (offsets : List ℚ) : 0 ≤ pos_extent offsets :=
  le_foldl_max _ 0

/-- The divisor the normalization loop uses is strictly positive. -/
lemma span_used_pos (offsets : List ℚ) : 0 < span_used offsets := by
  unfold span_used
  split
  · exact one_pos
  · rename_i h
    have h1 := neg_extent_nonneg offsets
    have h2 := pos_extent_nonneg offsets
    have : 0 ≤ neg_max_plus_pos_max offsets := by
      unfold neg_max_plus_pos_max; linarith
    exact lt_of_le_of_ne this (Ne.symm h)

/-- Pointwise description of the normalization rewrite loop. -/
lemma normalize_offsets_getD (offsets : List ℚ) (i : ℕ) (hi : i < offsets.length) :
    (normalize_offsets offsets).getD i 0 =
      if scannedIndex i then
        (offsets.getD i 0 + neg_extent offsets) / span_used offsets
      else offsets.getD i 0 := by
  unfold normalize_offsets
  have hlen : i < (offsets.enum.map (fun p =>
      if scannedIndex p.1 then (p.2 + neg_extent offsets) / span_used offsets
      else p.2)).length := by
    simpa [List.enum_length] using hi
  rw [List.getD_eq_getElem _ _ hlen, List.getElem_map, List.getElem_enum,
    List.getD_eq_getElem _ _ hi]

/-- The rewrite loop preserves list length. -/
lemma normalize_offsets_length (offsets : List ℚ) :
    (normalize_offsets offsets).length = offsets.length := by
  simp [normalize_offsets, List.enum_length]

/-! ### Claim C3 -/

/-- C3: round-trip of the offset normalization.  For every scanned
channel (every vertex/frame x, y or z channel), multiplying the
normalized value by the used span and subtracting the negative extent
reconstructs the original raw offset — exactly in the rational model,
hence within the spec's 1e-5 floating-point tolerance.  The span is
`pos_extent + neg_extent` with the degenerate `0` span replaced by `1`,
exactly as the normalizer divides. -/
theorem claim_C3_normalization_roundtrip (offsets : List ℚ) (i : ℕ)
    (hi : i < offsets.length) (hs : scannedIndex i = true) :
    (normalize_offsets offsets).getD i 0 * span_used offsets - neg_extent offsets
      = offsets.getD i 0 := by
  rw [normalize_offsets_getD offsets i hi, if_pos hs,
    div_mul_cancel₀ _ (ne_of_gt (span_used_pos offsets))]
  ring

/-- Witness for C3 on the concrete flat list `[3, -1, 0, 1]`
(extents 1 and 3, span 4). -/
theorem claim_C3_normalization_roundtrip_witness :
    (0 < ([3, -1, 0, 1] : List ℚ).length) ∧ scannedIndex 0 = true ∧
    (normalize_offsets [3, -1, 0, 1]).getD 0 0 * span_used [3, -1, 0, 1]
        - neg_extent [3, -1, 0, 1]
      = ([3, -1, 0, 1] : List ℚ).getD 0 0 :=
  ⟨by decide, by decide,
    claim_C3_normalization_roundtrip [3, -1, 0, 1] 0 (by decide) (by decide)⟩

/-! ### Claim C5 -/

/-- C5: safety of the extent computation.  Both extents are always
non-negative (each is `0` or the magnitude of an actual scanned value,
and they bound every scanned value), the divisor `span_used` is strictly
positive — so the per-channel rewrite `(value + neg_extent) / span`
never divides by zero and cannot produce a NaN — and in the degenerate
all-zero case the span resolves to `1`. -/
theorem claim_C5_extent_safety (offsets : List ℚ) :
    0 ≤ neg_extent offsets ∧
    0 ≤ pos_extent offsets ∧
    0 < span_used offsets ∧
    (neg_extent offsets = 0 ∨ -neg_extent offsets ∈ scanned_offsets offsets) ∧
    (pos_extent offsets = 0 ∨ pos_extent offsets ∈ scanned_offsets offsets) ∧
    (∀ v ∈ scanned_offsets offsets,
      -neg_extent offsets ≤ v ∧ v ≤ pos_extent offsets) ∧
    ((∀ v ∈ scanned_offsets offsets, v = 0) → span_used offsets = 1) ∧
    (∀ i < offsets.length, scannedIndex i = true →
      (normalize_offsets offsets).getD i 0
        = (offsets.getD i 0 + neg_extent offsets) / span_used offsets) := by
  refine ⟨neg_extent_nonneg offsets, pos_extent_nonneg offsets,
    span_used_pos offsets, ?_, ?_, ?_, ?_, ?_⟩
  · rcases foldl_min_eq_init_or_mem (scanned_offsets offsets) 0 with h | h
    · exact Or.inl (by unfold neg_extent lowest_negative_offset; rw [h]; ring)
    · exact Or.inr (by unfold neg_extent; rw [neg_neg]; exact h)
  · rcases foldl_max_eq_init_or_mem (scanned_offsets offsets) 0 with h | h
    · exact Or.inl (by unfold pos_extent highest_positive_offset; rw [h])
    · exact Or.inr h
  · intro v hv
    constructor
    · have := foldl_min_le_mem (scanned_offsets offsets) 0 v hv
      unfold neg_extent lowest_negative_offset
      linarith
    · exact foldl_max_le_mem (scanned_offsets offsets) 0 v hv
  · intro hz
    have hmin : lowest_negative_offset offsets = 0 := by
      rcases foldl_min_eq_init_or_mem (scanned_offsets offsets) 0 with h | h
      · exact h
      · exact hz _ h
    have hmax : highest_positive_offset offsets = 0 := by
      rcases foldl_max_eq_init_or_mem (scanned_offsets offsets) 0 with h | h
      · exact h
      · exact hz _ h
    unfold span_used
    rw [if_pos]
    unfold neg_max_plus_pos_max pos_extent neg_extent
    rw [hmin, hmax]
    ring
  · intro i hi hs
    rw [normalize_offsets_getD offsets i hi, if_pos hs]

/-- Witness for C5: the motionless list `[0, 0, 0, 1]` resolves its span
to `1` and rewrites channel 0 as `(0 + 0) / 1`. -/
theorem claim_C5_extent_safety_witness :
    span_used [0, 0, 0, 1] = 1 ∧
    (normalize_offsets [0, 0, 0, 1]).getD 0 0
      = (([0, 0, 0, 1] : List ℚ).getD 0 0 + neg_extent [0, 0, 0, 1])
          / span_used [0, 0, 0, 1] :=
  ⟨(claim_C5_extent_safety [0, 0, 0, 1]).2.2.2.2.2.2.1 (by decide),
   (claim_C5_extent_safety [0, 0, 0, 1]).2.2.2.2.2.2.2 0 (by decide) (by decide)⟩

/-! ### Claim C4: the alpha channel -/

/-- Every-4th-element invariant: a list made of whole 4-float blocks
whose last element is exactly 1. -/
def Alpha4 (l : List ℚ) : Prop :=
  l.length % 4 = 0 ∧ ∀ i < l.length, i % 4 = 3 → l.getD i 0 = 1

/-- The invariant survives concatenation of block-aligned lists. -/
lemma alpha4_append {l1 l2 : List ℚ} (h1 : Alpha4 l1) (h2 : Alpha4 l2) :
    Alpha4 (l1 ++ l2) := by
  obtain ⟨hl1, he1⟩ := h1
  obtain ⟨hl2, he2⟩ := h2
  constructor
  · rw [List.length_append]; omega
  · intro i hi hm
    rw [List.length_append] at hi
    by_cases hcase : i < l1.length
    · rw [List.getD_append _ _ _ _ hcase]
      exact he1 i hcase hm
    · push_neg at hcase
      rw [List.getD_append_right _ _ _ _ hcase]
      exact he2 (i - l1.length) (by omega) (by omega)

/-- The invariant survives flattening block-aligned chunks. -/
lemma alpha4_flatMap {α : Type} (l : List α) (f : α → List ℚ)
    (h : ∀ x ∈ l, Alpha4 (f x)) : Alpha4 (l.flatMap f) := by
  induction l with
  | nil => exact ⟨by simp, by simp⟩
  | cons a tl ih =>
    rw [List.flatMap_cons]
    exact alpha4_append (h a (by simp)) (ih (fun x hx => h x (by simp [hx])))

/-- A single emitted 4-tuple ends in 1. -/
lemma alpha4_block (a b c : ℚ) : Alpha4 [a, b, c, 1] := by
  refine ⟨by simp, fun i hi hm => ?_⟩
  simp only [List.length_cons, List.length_nil] at hi
  have : i = 3 := by omega
  subst this
  rfl

/-- The flat offsets list is made of 4-blocks ending in 1. -/
lemma alpha4_offsets (meshes : List Mesh) : Alpha4 (get_vertex_data meshes).1 := by
  unfold get_vertex_data
  simp only
  refine alpha4_flatMap _ _ (fun m _ => ?_)
  unfold offsetsOfMesh
  exact alpha4_flatMap _ _ (fun p _ => alpha4_block _ _ _)

/-- The flat normals list is made of 4-blocks ending in 1. -/
lemma alpha4_normals (meshes : List Mesh) : Alpha4 (get_vertex_data meshes).2 := by
  unfold get_vertex_data
  simp only
  refine alpha4_flatMap _ _ (fun m _ => ?_)
  unfold normalsOfMesh
  exact alpha4_flatMap _ _ (fun v _ => alpha4_block _ _ _)

/-- Every scanned value is drawn from a non-alpha index of the list. -/
lemma scanned_offsets_mem {l : List ℚ} {v : ℚ} (hv : v ∈ scanned_offsets l) :
    ∃ i, i < l.length ∧ i % 4 ≠ 3 ∧ l.getD i 0 = v := by
  unfold scanned_offsets at hv
  rcases List.mem_map.mp hv with ⟨p, hp, hsnd⟩
  rcases List.mem_filter.mp hp with ⟨hpe, hpf⟩
  obtain ⟨i, x⟩ := p
  have hix := List.mem_enum hpe
  refine ⟨i, hix.1, ?_, ?_⟩
  · simp only [scannedIndex, bne_iff_ne, ne_eq] at hpf
    omega
  · rw [List.getD_eq_getElem _ _ hix.1, ← hix.2]
    exact hsnd

/-- The rewrite loop leaves alpha-channel entries untouched. -/
lemma normalize_offsets_alpha (l : List ℚ) (i : ℕ) (hi : i < l.length)
    (hm : i % 4 = 3) : (normalize_offsets l).getD i 0 = l.getD i 0 := by
  rw [normalize_offsets_getD _ _ hi, if_neg]
  simp only [scannedIndex, bne_iff_ne, ne_eq, not_not]
  omega

/-- C4: in both encoder outputs every 4th element (each 4-tuple's alpha
channel) equals 1.0 exactly; the extent scan only draws values from
non-alpha indices; and the normalization rewrite skips alpha indices, so
they are still exactly 1.0 in the normalized output. -/
theorem claim_C4_alpha_channel (meshes : List Mesh) :
    (∀ i < (get_vertex_data meshes).1.length, i % 4 = 3 →
      (get_vertex_data meshes).1.getD i 0 = 1) ∧
    (∀ i < (get_vertex_data meshes).2.length, i % 4 = 3 →
      (get_vertex_data meshes).2.getD i 0 = 1) ∧
    (∀ v ∈ scanned_offsets (get_vertex_data meshes).1,
      ∃ i, i < (get_vertex_data meshes).1.length ∧ i % 4 ≠ 3 ∧
        (get_vertex_data meshes).1.getD i 0 = v) ∧
    (∀ i < (get_vertex_data meshes).1.length, i % 4 = 3 →
      (normalize_offsets (get_vertex_data meshes).1).getD i 0 = 1) := by
  refine ⟨(alpha4_offsets meshes).2, (alpha4_normals meshes).2,
    fun v hv => scanned_offsets_mem hv, fun i hi hm => ?_⟩
  rw [normalize_offsets_alpha _ i hi hm]
  exact (alpha4_offsets meshes).2 i hi hm

/-- Witness for C4 at index 3 of a concrete one-vertex, one-frame input. -/
theorem claim_C4_alpha_channel_witness :
    (get_vertex_data [⟨[⟨⟨1, 2, 3⟩, ⟨0, 0, 1⟩⟩], [], []⟩]).1.getD 3 0 = 1 ∧
    (get_vertex_data [⟨[⟨⟨1, 2, 3⟩, ⟨0, 0, 1⟩⟩], [], []⟩]).2.getD 3 0 = 1 ∧
    (normalize_offsets
        (get_vertex_data [⟨[⟨⟨1, 2, 3⟩, ⟨0, 0, 1⟩⟩], [], []⟩]).1).getD 3 0 = 1 :=
  ⟨(claim_C4_alpha_channel [⟨[⟨⟨1, 2, 3⟩, ⟨0, 0, 1⟩⟩], [], []⟩]).1 3
      (by decide) (by decide),
   (claim_C4_alpha_channel [⟨[⟨⟨1, 2, 3⟩, ⟨0, 0, 1⟩⟩], [], []⟩]).2.1 3
      (by decide) (by decide),
   (claim_C4_alpha_channel [⟨[⟨⟨1, 2, 3⟩, ⟨0, 0, 1⟩⟩], [], []⟩]).2.2.2 3
      (by decide) (by decide)⟩

/-! ### Claim C6: export mesh UVs -/

/-- The UV write loop never touches indices below its enumeration start. -/
lemma write_uvs_from_untouched (loops : List Loop) (n k : ℕ) (data : List UV)
    (j : ℕ) (hj : j < k) :
    ((loops.enumFrom k).foldl
        (fun d p => d.set p.1 (exportUV n p.2.vertex_index)) data)[j]?
      = data[j]? := by
  induction loops generalizing k data with
  | nil => rfl
  | cons l ls ih =>
    rw [List.enumFrom_cons, List.foldl_cons, ih (k + 1) _ (by omega)]
    exact List.getElem?_set_ne (by omega)

/-- The UV write loop writes each loop's UV at that loop's own index. -/
lemma write_uvs_from_written (loops : List Loop) (n k : ℕ) (data : List UV)
    (hlen : k + loops.length ≤ data.length) (j : ℕ) (hk : k ≤ j)
    (hj : j < k + loops.length) :
    ((loops.enumFrom k).foldl
        (fun d p => d.set p.1 (exportUV n p.2.vertex_index)) data)[j]?
      = some (exportUV n ((loops.getD (j - k) default).vertex_index)) := by
  induction loops generalizing k data j with
  | nil => simp at hj; omega
  | cons l ls ih =>
    simp only [List.length_cons] at hlen hj
    rw [List.enumFrom_cons, List.foldl_cons]
    by_cases hcase : j = k
    · subst hcase
      rw [write_uvs_from_untouched ls n (j + 1) _ j (by omega),
        List.getElem?_set_self (by omega)]
      simp
    · rw [ih (k + 1) (data.set k (exportUV n l.vertex_index))
        (by rw [List.length_set]; omega) j (by omega) (by omega)]
      have hsucc : j - k = (j - (k + 1)) + 1 := by omega
      rw [hsucc, List.getD_cons_succ]

/-- Final content of the written UV layer, in `getD` form. -/
lemma write_uvs_getD (loops : List Loop) (n : ℕ) (data : List UV)
    (hlen : data.length = loops.length) (j : ℕ) (hj : j < loops.length) :
    (write_uvs loops n data).getD j default
      = exportUV n ((loops.getD j default).vertex_index) := by
  unfold write_uvs
  have henum : loops.enum = loops.enumFrom 0 := rfl
  rw [henum, List.getD_eq_getElem?_getD,
    write_uvs_from_written loops n 0 data (by omega) j (by omega) (by omega)]
  rfl

/-- The layer-creating while loop leaves at least two layers. -/
lemma ensure_two_uv_layers_length (nloops : ℕ) (layers : List UVLayer) :
    2 ≤ (ensure_two_uv_layers nloops layers).length := by
  rcases layers with _ | ⟨a, _ | ⟨b, rest⟩⟩ <;> simp [ensure_two_uv_layers]

/-- The second layer after the while loop has one UV per mesh loop,
whether it pre-existed (Blender's invariant, the hypothesis) or was just
created. -/
lemma ensure_two_uv_layers_getD_one (nloops : ℕ) (layers : List UVLayer)
    (hdata : ∀ layer ∈ layers, layer.data.length = nloops) :
    ((ensure_two_uv_layers nloops layers).getD 1 default).data.length = nloops := by
  rcases layers with _ | ⟨a, _ | ⟨b, rest⟩⟩
  · simp [ensure_two_uv_layers, new_uv_layer]
  · simp [ensure_two_uv_layers, new_uv_layer]
  · exact hdata b (by simp [ensure_two_uv_layers])

/-- C6: the export mesh builder guarantees at least two UV channels
(creating them if missing), and in the second channel the loop at index
`j`, referencing vertex `v`, carries exactly
UV = ((v + 0.5) / vertex_count, 128/255). -/
theorem claim_C6_export_mesh_uvs (me : Mesh)
    (hdata : ∀ layer ∈ me.uv_layers, layer.data.length = me.loops.length)
    (_hverts : 0 < me.vertices.length) :
    2 ≤ (create_export_mesh_object me).uv_layers.length ∧
    ∀ j < me.loops.length,
      (((create_export_mesh_object me).uv_layers.getD 1 default).data.getD
            j default).u
          = (((me.loops.getD j default).vertex_index : ℚ) + 1/2)
              / (me.vertices.length : ℚ) ∧
      (((create_export_mesh_object me).uv_layers.getD 1 default).data.getD
            j default).v
          = 128/255 := by
  have hlen2 := ensure_two_uv_layers_length me.loops.length me.uv_layers
  constructor
  · unfold create_export_mesh_object
    simp only [List.length_set]
    exact hlen2
  · intro j hj
    have hset : ((create_export_mesh_object me).uv_layers.getD 1 default).data
        = write_uvs me.loops me.vertices.length
            ((ensure_two_uv_layers me.loops.length me.uv_layers).getD
              1 default).data := by
      unfold create_export_mesh_object
      simp only
      rw [List.getD_eq_getElem _ _ (by rw [List.length_set]; omega),
        List.getElem_set, if_pos rfl]
    have hwrote := write_uvs_getD me.loops me.vertices.length
      ((ensure_two_uv_layers me.loops.length me.uv_layers).getD 1 default).data
      (ensure_two_uv_layers_getD_one me.loops.length me.uv_layers hdata) j hj
    rw [hset, hwrote]
    constructor <;> norm_num [exportUV]

/-- Concrete mesh for the C6 witness: two vertices, three loops, no
pre-existing UV layers. -/
def witnessExportMesh : Mesh :=
  ⟨[⟨⟨0, 0, 0⟩, ⟨0, 0, 1⟩⟩, ⟨⟨1, 0, 0⟩, ⟨0, 0, 1⟩⟩], [⟨0⟩, ⟨1⟩, ⟨1⟩], []⟩

/-- Witness for C6: loop 1 of the concrete mesh references vertex 1 and
receives UV = ((1 + 0.5)/2, 128/255). -/
theorem claim_C6_export_mesh_uvs_witness :
    2 ≤ (create_export_mesh_object witnessExportMesh).uv_layers.length ∧
    (((create_export_mesh_object witnessExportMesh).uv_layers.getD
          1 default).data.getD 1 default).u
        = (((witnessExportMesh.loops.getD 1 default).vertex_index : ℚ) + 1/2)
            / (witnessExportMesh.vertices.length : ℚ) ∧
    (((create_export_mesh_object witnessExportMesh).uv_layers.getD
          1 default).data.getD 1 default).v
        = 128/255 :=
  ⟨(claim_C6_export_mesh_uvs witnessExportMesh (by decide) (by decide)).1,
   (claim_C6_export_mesh_uvs witnessExportMesh (by decide) (by decide)).2 1
     (by decide)⟩

/-! ### Operator-level lemmas (claims C7-C10) -/

/-- Rounding the exact unit scale 0.01 to two decimals returns it. -/
lemma pyRound2_exact : pyRound2 (1/100) = 1/100 := by
  unfold pyRound2
  norm_num [round_eq]

/-- Variant of `pyRound2_exact` in the inverse normal form simp produces. -/
lemma pyRound2_exact_inv : pyRound2 ((100 : ℚ)⁻¹) = (100 : ℚ)⁻¹ := by
  unfold pyRound2
  norm_num [round_eq]

/-- When every modifier is allow-listed the operator finds no offender. -/
lemma find_disallowed_none (objects : List SceneObject)
    (hmods : ∀ ob ∈ objects, ∀ m ∈ ob.modifiers, m ∈ allowed_modifiers) :
    (objects.flatMap SceneObject.modifiers).find?
      (fun m => !(allowed_modifiers.contains m)) = none := by
  rw [List.find?_eq_none]
  intro m hm
  rcases List.mem_flatMap.mp hm with ⟨ob, hob, hmod⟩
  simp only [Bool.not_eq_true', Bool.not_eq_false]
  exact List.elem_eq_true_of_mem (hmods ob hob m hmod)

lemma execute_cases (scene : Scene) (objects : List SceneObject)
    (sample : Int → Mesh) (fp : String) :
    (((execute scene objects sample fp).result = some .invalidUnits ∨
      (execute scene objects sample fp).result = some .vertexLimit ∨
      (execute scene objects sample fp).result = some .frameLimit ∨
      (∃ m, (execute scene objects sample fp).result
        = some (.modifierNotAllowed m))) ∧
      (execute scene objects sample fp).sampled_frames = 0 ∧
      (execute scene objects sample fp).export_mesh_created = false ∧
      (execute scene objects sample fp).offset_texture = none ∧
      (execute scene objects sample fp).normal_texture = none ∧
      (execute scene objects sample fp).images_saved = 0) ∨
    (execute scene objects sample fp
        = ⟨some .indexError, (frame_range scene).length, false, none, none, 0⟩ ∧
      (frame_range scene).map sample = []) ∨
    ((frame_range scene).map sample ≠ [] ∧
      execute scene objects sample fp
        = ⟨if fp = "" then some .noSaveTarget else none,
           (frame_range scene).length, true,
           some (bake_vertex_data
              (get_vertex_data ((frame_range scene).map sample)).1
              (get_vertex_data ((frame_range scene).map sample)).2
              (objects.map SceneObject.base_vertices).sum
              (frame_range scene).length).1,
           some (bake_vertex_data
              (get_vertex_data ((frame_range scene).map sample)).1
              (get_vertex_data ((frame_range scene).map sample)).2
              (objects.map SceneObject.base_vertices).sum
              (frame_range scene).length).2,
           if fp = "" then 0 else 2⟩) := by
  unfold execute
  cases hfind : (objects.flatMap SceneObject.modifiers).find?
      (fun m => !(allowed_modifiers.contains m)) with
  | some m =>
    left
    simp [hfind]
  | none =>
    simp only [hfind]
    by_cases hu : scene.unit_system ≠ "METRIC" ∨
        pyRound2 scene.scale_length ≠ 1/100
    · left
      rw [if_pos hu]
      simp
    · rw [if_neg hu]
      by_cases hvc : 8192 < (objects.map SceneObject.base_vertices).sum
      · left
        rw [if_pos hvc]
        simp
      · rw [if_neg hvc]
        by_cases hfc : 8192 < (frame_range scene).length
        · left
          rw [if_pos hfc]
          simp
        · rw [if_neg hfc]
          cases hms : (frame_range scene).map sample with
          | nil =>
            right; left
            simp [hms]
          | cons m0 rest =>
            right; right
            refine ⟨by simp [hms], ?_⟩
            simp only [hms]
            rcases hgvd : get_vertex_data (m0 :: rest) with ⟨offs, norms⟩
            simp only [hgvd]
            by_cases hfp : fp = "" <;> simp [hfp, hms, hgvd]


/-! ### Claim C7: the 8192 limits -/

/-- C7: with allow-listed modifiers and valid units, an invocation whose
vertex and frame counts are both at most 8192 never fails a limit check,
while a vertex count above 8192 (or, vertex count in range, a frame
count above 8192) is cancelled with the limit-exceeded error before any
frame is sampled and with no side effects: no mesh, no texture, no file. -/
theorem claim_C7_limit_checks (scene : Scene) (objects : List SceneObject)
    (sample : Int → Mesh) (blend_filepath : String)
    (hmods : ∀ ob ∈ objects, ∀ m ∈ ob.modifiers, m ∈ allowed_modifiers)
    (hsys : scene.unit_system = "METRIC")
    (hscale : pyRound2 scene.scale_length = 1/100) :
    ((objects.map SceneObject.base_vertices).sum ≤ 8192 →
      (frame_range scene).length ≤ 8192 →
      (execute scene objects sample blend_filepath).result ≠ some .vertexLimit ∧
      (execute scene objects sample blend_filepath).result ≠ some .frameLimit) ∧
    (8192 < (objects.map SceneObject.base_vertices).sum →
      execute scene objects sample blend_filepath
        = ⟨some .vertexLimit, 0, false, none, none, 0⟩) ∧
    ((objects.map SceneObject.base_vertices).sum ≤ 8192 →
      8192 < (frame_range scene).length →
      execute scene objects sample blend_filepath
        = ⟨some .frameLimit, 0, false, none, none, 0⟩) := by
  have hunits : ¬(scene.unit_system ≠ "METRIC" ∨
      pyRound2 scene.scale_length ≠ 1/100) := by
    simp [hsys, hscale]
  unfold execute
  rw [find_disallowed_none objects hmods]
  refine ⟨fun hvc hfc => ?_, fun hvc => ?_, fun hvc hfc => ?_⟩
  · simp only [if_neg hunits, if_neg (not_lt.mpr hvc), if_neg (not_lt.mpr hfc)]
    rcases hms : (frame_range scene).map sample with _ | ⟨m0, rest⟩
    · simp [hms]
    · simp only [hms]
      split <;> simp
  · simp only [if_neg hunits, if_pos hvc]
  · simp only [if_neg hunits, if_neg (not_lt.mpr hvc), if_pos hfc]

/-- Witness for C7: a single 8193-vertex object is cancelled by the
vertex limit with no sampling and no outputs. -/
theorem claim_C7_limit_checks_witness :
    execute ⟨0, 0, 1, "METRIC", 1/100⟩ [⟨8193, []⟩] (fun _ => default) "s.blend"
      = ⟨some .vertexLimit, 0, false, none, none, 0⟩ :=
  (claim_C7_limit_checks ⟨0, 0, 1, "METRIC", 1/100⟩ [⟨8193, []⟩]
    (fun _ => default) "s.blend" (by simp) rfl pyRound2_exact).2.1 (by norm_num)

/-! ### Claim C8: degenerate ranges are not validated (code bug) -/

/-- C8 evaluated on the code: the operator has no zero-objects / zero-
frames validation.  With an empty frame range (frame_start 2, frame_end
0) every upfront check passes and the run dies with an uncaught
IndexError at `meshes[0]`; with zero selected objects and one frame it
runs to FINISHED, handing a zero-width garbage texture to the saver. -/
theorem claim_C8_degenerate_ranges_not_validated :
    execute ⟨2, 0, 1, "METRIC", 1/100⟩ [⟨4, []⟩] (fun _ => default) "s.blend"
      = ⟨some .indexError, 0, false, none, none, 0⟩ ∧
    execute ⟨0, 0, 1, "METRIC", 1/100⟩ [] (fun _ => ⟨[], [], []⟩) "s.blend"
      = ⟨none, 1, true, some ⟨0, 1, true, 0, 0, []⟩,
          some ⟨0, 1, false, 0, 0, []⟩, 2⟩ := by
  constructor <;>
  · unfold execute
    simp [pyRound2_exact, pyRound2_exact_inv, frame_range, pyRange, pyRangeFuel,
      get_vertex_data, offsetsOfMesh, normalsOfMesh, offsetEntry, normalEntry,
      bake_vertex_data, normalize_offsets, scannedIndex, neg_extent, pos_extent,
      span_used, neg_max_plus_pos_max, lowest_negative_offset,
      highest_positive_offset, scanned_offsets,
      normalize_signed_to_zero_to_one_space, List.enum]

/-! ### Claim C9: atomicity on failure -/

/-- Counterexample to C9 as stated: with a valid scene, one one-vertex
object, one frame and an unsaved .blend file (no save target), the run
fails with the no-save-target error, yet one frame was sampled and the
export mesh and both textures were already created — the error is not
detected by upfront validation and partial output exists on failure. -/
theorem claim_C9_no_partial_output_counterexample :
    (execute ⟨0, 0, 1, "METRIC", 1/100⟩ [⟨1, []⟩]
        (fun _ => ⟨[⟨⟨0, 0, 0⟩, ⟨0, 0, 1⟩⟩], [], []⟩) "").result
      = some .noSaveTarget ∧
    (execute ⟨0, 0, 1, "METRIC", 1/100⟩ [⟨1, []⟩]
        (fun _ => ⟨[⟨⟨0, 0, 0⟩, ⟨0, 0, 1⟩⟩], [], []⟩) "").sampled_frames ≠ 0 ∧
    (execute ⟨0, 0, 1, "METRIC", 1/100⟩ [⟨1, []⟩]
        (fun _ => ⟨[⟨⟨0, 0, 0⟩, ⟨0, 0, 1⟩⟩], [], []⟩) "").export_mesh_created
      = true ∧
    (execute ⟨0, 0, 1, "METRIC", 1/100⟩ [⟨1, []⟩]
        (fun _ => ⟨[⟨⟨0, 0, 0⟩, ⟨0, 0, 1⟩⟩], [], []⟩) "").offset_texture
      ≠ none ∧
    (execute ⟨0, 0, 1, "METRIC", 1/100⟩ [⟨1, []⟩]
        (fun _ => ⟨[⟨⟨0, 0, 0⟩, ⟨0, 0, 1⟩⟩], [], []⟩) "").normal_texture
      ≠ none := by
  have heval : execute ⟨0, 0, 1, "METRIC", 1/100⟩ [⟨1, []⟩]
      (fun _ => ⟨[⟨⟨0, 0, 0⟩, ⟨0, 0, 1⟩⟩], [], []⟩) ""
      = ⟨some .noSaveTarget, 1, true,
          some ⟨1, 1, true, 0, 0, [0, 0, 0, 1]⟩,
          some ⟨1, 1, false, 0, 0, [1/2, 1/2, 1, 1]⟩, 0⟩ := by
    unfold execute
    simp [pyRound2_exact, pyRound2_exact_inv, frame_range, pyRange, pyRangeFuel,
      get_vertex_data, offsetsOfMesh, normalsOfMesh, offsetEntry, normalEntry,
      bake_vertex_data, normalize_offsets, scannedIndex, neg_extent, pos_extent,
      span_used, neg_max_plus_pos_max, lowest_negative_offset,
      highest_positive_offset, scanned_offsets,
      normalize_signed_to_zero_to_one_space, List.enum]
    norm_num
  rw [heval]
  simp

/-- C9 amended: the modifier, unit, vertex-limit and frame-limit errors
are detected by upfront validation before any sampling and leave no side
effects; the no-save-target error, however, is detected only inside
`save_image_exr`, after the export mesh and both textures have been
created (though before any image file is written), so those artifacts
persist on that failure. -/
theorem claim_C9_atomicity_amended (scene : Scene) (objects : List SceneObject)
    (sample : Int → Mesh) (fp : String) :
    (((execute scene objects sample fp).result = some .invalidUnits ∨
      (execute scene objects sample fp).result = some .vertexLimit ∨
      (execute scene objects sample fp).result = some .frameLimit ∨
      (∃ m, (execute scene objects sample fp).result
          = some (.modifierNotAllowed m))) →
      (execute scene objects sample fp).sampled_frames = 0 ∧
      (execute scene objects sample fp).export_mesh_created = false ∧
      (execute scene objects sample fp).offset_texture = none ∧
      (execute scene objects sample fp).normal_texture = none ∧
      (execute scene objects sample fp).images_saved = 0) ∧
    ((execute scene objects sample fp).result = some .noSaveTarget →
      (execute scene objects sample fp).export_mesh_created = true ∧
      (execute scene objects sample fp).offset_texture ≠ none ∧
      (execute scene objects sample fp).normal_texture ≠ none ∧
      (execute scene objects sample fp).images_saved = 0) := by
  rcases execute_cases scene objects sample fp with
    ⟨hres, h1, h2, h3, h4, h5⟩ | ⟨heq, hnil⟩ | ⟨hne, heq⟩
  · refine ⟨fun _ => ⟨h1, h2, h3, h4, h5⟩, fun h => ?_⟩
    rcases hres with hr | hr | hr | ⟨m, hr⟩ <;> rw [h] at hr <;> simp at hr
  · rw [heq]
    exact ⟨fun h => by simp at h, fun h => by simp at h⟩
  · rw [heq]
    by_cases hfp : fp = "" <;> simp [hfp]

/-- Witness for C9 (amended): the counterexample input instantiates the
no-save-target half of the amended statement. -/
theorem claim_C9_atomicity_amended_witness :
    (execute ⟨0, 0, 1, "METRIC", 1/100⟩ [⟨1, []⟩]
        (fun _ => ⟨[⟨⟨0, 0, 0⟩, ⟨0, 0, 1⟩⟩], [], []⟩) "").export_mesh_created
      = true ∧
    (execute ⟨0, 0, 1, "METRIC", 1/100⟩ [⟨1, []⟩]
        (fun _ => ⟨[⟨⟨0, 0, 0⟩, ⟨0, 0, 1⟩⟩], [], []⟩) "").offset_texture ≠ none ∧
    (execute ⟨0, 0, 1, "METRIC", 1/100⟩ [⟨1, []⟩]
        (fun _ => ⟨[⟨⟨0, 0, 0⟩, ⟨0, 0, 1⟩⟩], [], []⟩) "").normal_texture ≠ none ∧
    (execute ⟨0, 0, 1, "METRIC", 1/100⟩ [⟨1, []⟩]
        (fun _ => ⟨[⟨⟨0, 0, 0⟩, ⟨0, 0, 1⟩⟩], [], []⟩) "").images_saved = 0 :=
  (claim_C9_atomicity_amended ⟨0, 0, 1, "METRIC", 1/100⟩ [⟨1, []⟩]
      (fun _ => ⟨[⟨⟨0, 0, 0⟩, ⟨0, 0, 1⟩⟩], [], []⟩) "").2
    (by
      unfold execute
      simp [pyRound2_exact, pyRound2_exact_inv, frame_range, pyRange,
        pyRangeFuel])

/-! ### Claim C10: evaluated vertex counts must match the base counts -/

/-- C10: the texture width (and limit check) uses the objects' base,
un-evaluated vertex counts, while the buffers come from the evaluated
meshes; under the implicit precondition that the evaluated merged mesh
at every scheduled frame has exactly that base vertex count (allowed
modifiers preserve vertex counts), each created texture satisfies the
advertised buffer-length and layout guarantee
`pixels.length = 4 * width * height` with width the base vertex count
and height the frame count. -/
theorem claim_C10_evaluated_count_precondition (scene : Scene)
    (objects : List SceneObject) (sample : Int → Mesh) (fp : String)
    (t : Texture)
    (hcount : ∀ i ∈ frame_range scene,
      (sample i).vertices.length = (objects.map SceneObject.base_vertices).sum) :
    ((execute scene objects sample fp).offset_texture = some t →
      t.width = (objects.map SceneObject.base_vertices).sum ∧
      t.height = (frame_range scene).length ∧
      t.pixels.length = 4 * t.width * t.height) ∧
    ((execute scene objects sample fp).normal_texture = some t →
      t.width = (objects.map SceneObject.base_vertices).sum ∧
      t.height = (frame_range scene).length ∧
      t.pixels.length = 4 * t.width * t.height) := by
  have hV : ∀ m ∈ (frame_range scene).map sample,
      m.vertices.length = (objects.map SceneObject.base_vertices).sum := by
    intro m hm
    rcases List.mem_map.mp hm with ⟨i, hi, rfl⟩
    exact hcount i hi
  have hoffl := get_vertex_data_fst_length ((frame_range scene).map sample) _ hV
  have hnorl := get_vertex_data_snd_length ((frame_range scene).map sample) _ hV
  rw [List.length_map] at hoffl hnorl
  rcases execute_cases scene objects sample fp with
    ⟨hres, h1, h2, h3, h4, h5⟩ | ⟨heq, hnil⟩ | ⟨hne, heq⟩
  · refine ⟨fun h => ?_, fun h => ?_⟩
    · rw [h3] at h; simp at h
    · rw [h4] at h; simp at h
  · rw [heq]
    exact ⟨fun h => by simp at h, fun h => by simp at h⟩
  · rw [heq]
    refine ⟨fun h => ?_, fun h => ?_⟩ <;>
      simp only [Option.some.injEq] at h <;> subst h
    · refine ⟨rfl, rfl, ?_⟩
      show (normalize_offsets
        (get_vertex_data ((frame_range scene).map sample)).1).length = _
      rw [normalize_offsets_length, hoffl]
      rfl
    · refine ⟨rfl, rfl, ?_⟩
      exact hnorl

/-- Witness for C10 on a one-object, one-frame scene whose sampled mesh
has exactly the base vertex count. -/
theorem claim_C10_evaluated_count_precondition_witness :
    ((execute ⟨0, 0, 1, "METRIC", 1/100⟩ [⟨1, []⟩]
          (fun _ => ⟨[⟨⟨0, 0, 0⟩, ⟨0, 0, 1⟩⟩], [], []⟩) "s.blend").offset_texture
        = some ⟨1, 1, true, 0, 0, [0, 0, 0, 1]⟩) ∧
    ((⟨1, 1, true, 0, 0, [0, 0, 0, 1]⟩ : Texture).width
        = ([⟨1, []⟩].map SceneObject.base_vertices).sum ∧
      (⟨1, 1, true, 0, 0, [0, 0, 0, 1]⟩ : Texture).height
        = (frame_range ⟨0, 0, 1, "METRIC", 1/100⟩).length ∧
      (⟨1, 1, true, 0, 0, [0, 0, 0, 1]⟩ : Texture).pixels.length
        = 4 * (⟨1, 1, true, 0, 0, [0, 0, 0, 1]⟩ : Texture).width
            * (⟨1, 1, true, 0, 0, [0, 0, 0, 1]⟩ : Texture).height) := by
  have hsome : (execute ⟨0, 0, 1, "METRIC", 1/100⟩ [⟨1, []⟩]
      (fun _ => ⟨[⟨⟨0, 0, 0⟩, ⟨0, 0, 1⟩⟩], [], []⟩) "s.blend").offset_texture
      = some ⟨1, 1, true, 0, 0, [0, 0, 0, 1]⟩ := by
    unfold execute
    simp [pyRound2_exact, pyRound2_exact_inv, frame_range, pyRange, pyRangeFuel,
      get_vertex_data, offsetsOfMesh, normalsOfMesh, offsetEntry, normalEntry,
      bake_vertex_data, normalize_offsets, scannedIndex, neg_extent, pos_extent,
      span_used, neg_max_plus_pos_max, lowest_negative_offset,
      highest_positive_offset, scanned_offsets,
      normalize_signed_to_zero_to_one_space, List.enum]
  exact ⟨hsome,
    (claim_C10_evaluated_count_precondition ⟨0, 0, 1, "METRIC", 1/100⟩
      [⟨1, []⟩] (fun _ => ⟨[⟨⟨0, 0, 0⟩, ⟨0, 0, 1⟩⟩], [], []⟩) "s.blend"
      ⟨1, 1, true, 0, 0, [0, 0, 0, 1]⟩ (by decide)).1 hsome⟩

end VertexAnimation
